/-
Verification of the workout/nutrition tracker core
(src/fitness_tracker.py and src/fittracker_modern.py).

The Python programs keep three collections — workout sessions, a foods
registry and logged meals — prune them by date (lexicographic comparison
of YYYY-MM-DD strings), cascade food deletion onto meals, derive meal
calories/protein from per-100g food values, and aggregate meals into
per-day buckets for trend reports.

Dates are modelled as (year, month, day) triples of naturals with the
proleptic Gregorian calendar; `datetime.date - timedelta(days = n)` is
`n` iterations of the previous-day step, and `strftime("%Y-%m-%d")` is
zero-padded decimal formatting.  Python floats are modelled as rationals,
and `round(x, 2)` as decimal rounding with ties to even.  Records are
Python dicts; a field read with `.get(key, default)` that may be absent
is modelled as an `Option`.
-/
import Mathlib

namespace FitTrack

/-! ## Calendar model (Python `datetime.date`) -/

/-- Gregorian leap-year rule, as used by `datetime.date`. -/
def isLeap (y : Nat) : Bool :=
  (y % 4 == 0 && y % 100 != 0) || y % 400 == 0

/-- Number of days in month `m` of year `y`. -/
def daysInMonth (y m : Nat) : Nat :=
  if m = 2 then (if isLeap y then 29 else 28)
  else if m = 4 ∨ m = 6 ∨ m = 9 ∨ m = 11 then 30
  else 31

/-- A calendar date: year, month, day. -/
structure Ymd where
  y : Nat
  m : Nat
  d : Nat
deriving DecidableEq, Repr

/-- The previous calendar day. -/
def predDay (x : Ymd) : Ymd :=
  if 1 < x.d then ⟨x.y, x.m, x.d - 1⟩
  else if 1 < x.m then ⟨x.y, x.m - 1, daysInMonth x.y (x.m - 1)⟩
  else ⟨x.y - 1, 12, 31⟩

/-- Python `date - timedelta(days = n)`: `n` steps of `predDay`. -/
def subDays (n : Nat) (x : Ymd) : Ymd := predDay^[n] x

/-- A well-formed date within the 4-digit-year range. -/
def ValidYmd (x : Ymd) : Prop :=
  1 ≤ x.y ∧ x.y ≤ 9999 ∧ 1 ≤ x.m ∧ x.m ≤ 12 ∧ 1 ≤ x.d ∧ x.d ≤ daysInMonth x.y x.m

instance (x : Ymd) : Decidable (ValidYmd x) := by
  unfold ValidYmd; infer_instance

/-- Strict order on dates, lexicographic on (year, month, day). -/
def ymdLt (a b : Ymd) : Prop :=
  a.y < b.y ∨ (a.y = b.y ∧ (a.m < b.m ∨ (a.m = b.m ∧ a.d < b.d)))

/-! ## Date formatting (`strftime("%Y-%m-%d")`) -/

/-- The ASCII character of decimal digit `d` (for `d < 10`). -/
def digitChar (d : Nat) : Char := Char.ofNat (48 + d)

/-- Two-digit zero-padded decimal rendering of `n ≤ 99`. -/
def pad2 (n : Nat) : List Char :=
  [digitChar (n / 10 % 10), digitChar (n % 10)]

/-- Four-digit zero-padded decimal rendering of `n ≤ 9999`. -/
def pad4 (n : Nat) : List Char :=
  [digitChar (n / 1000 % 10), digitChar (n / 100 % 10),
   digitChar (n / 10 % 10), digitChar (n % 10)]

/-- Python `strftime("%Y-%m-%d")`. -/
def dateStr (x : Ymd) : String :=
  ⟨pad4 x.y ++ '-' :: (pad2 x.m ++ '-' :: pad2 x.d)⟩

/-! ## Python numbers: floats as rationals, `round(x, 2)` -/

/-- Python `round` to an integer: nearest, ties to even. -/
def roundHalfEven (q : ℚ) : Int :=
  let f : Int := q.num.fdiv (q.den : Int)
  let r : ℚ := q - (f : ℚ)
  if r < 1 / 2 then f
  else if 1 / 2 < r then f + 1
  else if f % 2 = 0 then f else f + 1

/-- Python `round(x, 2)`. -/
def round2 (q : ℚ) : ℚ := (roundHalfEven (q * 100) : ℚ) / 100

/-- Error kinds of the meal operations (spec §7): `InvalidReference` for a
food name that is not a current key, `NotFound` for a missing meal id. -/
inductive MealError where
  | invalidReference
  | notFound
deriving DecidableEq, Repr

/-- Replace the first element satisfying `p` (Python mutates the object
found by `next(...)` in place). -/
def updateFirst (p : α → Bool) (f : α → α) : List α → List α
  | [] => []
  | a :: l => if p a then f a :: l else a :: updateFirst p f l

/-! ## `src/fitness_tracker.py` (class FitSimple) -/

namespace FT

/-- An exercise dict of fitness_tracker.py. -/
structure Exercise where
  id : String
  name : String
  sets : Int
  reps : Int
  weight : ℚ
deriving DecidableEq, Repr

/-- A session dict; `date` and `created` are read with `.get(key, "")`,
so they may be absent. -/
structure Session where
  id : String
  name : String
  date : Option String
  created : Option String
  exercises : List Exercise
deriving DecidableEq, Repr

/-- A meal dict of nutrition["meals"]; `date` is read with `.get`. -/
structure Meal where
  id : String
  date : Option String
  time : String
  food : String
  grams : ℚ
  calories : ℚ
  protein : ℚ
deriving DecidableEq, Repr

/-- A foods entry: `{name: {"cal": ..., "prot": ...}}`. -/
structure Food where
  cal : ℚ
  prot : ℚ
deriving DecidableEq, Repr

/-- The program state: `workouts["sessions"]`, `nutrition["meals"]`,
`foods` (a dict, modelled as a key-value list). -/
structure Store where
  sessions : List Session
  meals : List Meal
  foods : List (String × Food)
deriving DecidableEq, Repr

/-- The function `prune_data()`: keep sessions whose date string is `>=` the 14-day
cutoff and meals whose date string is `>=` the 7-day cutoff, comparing
`YYYY-MM-DD` strings lexicographically; a missing date reads as `""`.
`now` is the current date (`datetime.now().date()`). -/
def prune (now : Ymd) (st : Store) : Store :=
  let cutoffW := dateStr (subDays 14 now)
  let cutoffN := dateStr (subDays 7 now)
  { st with
    sessions := st.sessions.filter fun s => decide (cutoffW ≤ s.date.getD ""),
    meals := st.meals.filter fun m => decide (cutoffN ≤ m.date.getD "") }

/-- The state change of `FitSimple.del_food` once the user confirms
deleting `name`: `foods.pop(name, None)` and drop every meal whose
`food` equals `name`. -/
def delFood (st : Store) (name : String) : Store :=
  { st with
    foods := st.foods.filter fun p => p.1 != name,
    meals := st.meals.filter fun m => m.food != name }

/-- The state change of `FitSimple.log_meal`: reject when the typed food
name is empty or not a key of `foods` (the `if not foods` and
`if not choice or choice not in foods` guards, both of which leave the
store unchanged); otherwise append a fresh meal whose derived fields come
from the food's per-100g values.  `newId` stands for `make_id()` and
`time` for the wall-clock time string. -/
def logMeal (st : Store) (date choice : String) (grams : ℚ)
    (newId time : String) : Store × Option MealError :=
  if choice = "" then (st, some .invalidReference)
  else
    match st.foods.lookup choice with
    | none => (st, some .invalidReference)
    | some f =>
      let meal : Meal :=
        { id := newId, date := some date, time := time, food := choice,
          grams := round2 grams,
          calories := round2 (f.cal * (grams / 100)),
          protein := round2 (f.prot * (grams / 100)) }
      ({ st with meals := st.meals ++ [meal] }, none)

end FT

/-! ## `src/fittracker_modern.py` (class FitTrackerModern) -/

namespace FTM

/-- An exercise dict of fittracker_modern.py (best set only). -/
structure Exercise where
  id : String
  name : String
  weight : ℚ
  reps : Int
deriving DecidableEq, Repr

/-- A session dict; `date` and `created_at` are read with `.get(key, "")`. -/
structure Session where
  id : String
  name : String
  date : Option String
  created_at : Option String
  exercises : List Exercise
deriving DecidableEq, Repr

/-- A meal dict of `nutrition["meals"]`. -/
structure Meal where
  id : String
  timestamp : String
  date : Option String
  time : String
  food : String
  grams : ℚ
  calories : ℚ
  protein : ℚ
deriving DecidableEq, Repr

/-- A foods entry: `{"cal_per_100g": ..., "protein_per_100g": ...}`. -/
structure Food where
  cal_per_100g : ℚ
  protein_per_100g : ℚ
deriving DecidableEq, Repr

/-- The nutrition document: `{"foods": {...}, "meals": [...]}`. -/
structure Nut where
  foods : List (String × Food)
  meals : List Meal
deriving DecidableEq, Repr

/-- The state change of `FitTrackerModern.delete_food` once confirmed:
`foods.pop(name, None)` and keep only meals with `m["food"] != name`. -/
def deleteFood (nut : Nut) (name : String) : Nut :=
  { foods := nut.foods.filter fun p => p.1 != name,
    meals := nut.meals.filter fun m => m.food != name }

/-- The state change of `FitTrackerModern.add_meal`: reject when the typed
food name is empty or not a key of `foods` (`if not choice or choice not
in nutrition["foods"]`, and the `if not nutrition["foods"]` guard, all of
which leave the store unchanged); otherwise append a fresh meal with
derived fields from the current food snapshot. -/
def addMeal (nut : Nut) (date choice : String) (grams : ℚ)
    (newId timestamp time : String) : Nut × Option MealError :=
  if choice = "" then (nut, some .invalidReference)
  else
    match nut.foods.lookup choice with
    | none => (nut, some .invalidReference)
    | some f =>
      let meal : Meal :=
        { id := newId, timestamp := timestamp, date := some date, time := time,
          food := choice, grams := round2 grams,
          calories := round2 (f.cal_per_100g * (grams / 100)),
          protein := round2 (f.protein_per_100g * (grams / 100)) }
      ({ nut with meals := nut.meals ++ [meal] }, none)

/-- The in-place rewrite `edit_meal` applies to the found meal: new
(rounded) grams and derived fields recomputed from food `f`. -/
def remeasure (f : Food) (grams : ℚ) (m : Meal) : Meal :=
  { m with grams := round2 grams,
           calories := round2 (f.cal_per_100g * (grams / 100)),
           protein := round2 (f.protein_per_100g * (grams / 100)) }

/-- The method `FitTrackerModern.edit_meal` on meal id `mid` with new `grams`:
silently no-op when no meal has that id (`if not meal: return`), error
when the meal's food is gone from the registry, else recompute the
derived fields of that meal from the current food values. -/
def editMeal (nut : Nut) (mid : String) (grams : ℚ) : Nut × Option MealError :=
  match nut.meals.find? (fun m => m.id == mid) with
  | none => (nut, some .notFound)
  | some meal =>
    match nut.foods.lookup meal.food with
    | none => (nut, some .invalidReference)
    | some f =>
      ({ nut with meals := updateFirst (fun m => m.id == mid) (remeasure f grams) nut.meals },
        none)

/-- The sort key of `refresh_sessions`: `(s.get("date",""), s.get("created_at",""))`. -/
def sessionKey (s : Session) : String × String := (s.date.getD "", s.created_at.getD "")

/-- Python tuple comparison: lexicographic. -/
def pairLe (x y : String × String) : Prop := x.1 < y.1 ∨ (x.1 = y.1 ∧ x.2 ≤ y.2)

instance : DecidableRel pairLe := fun x y => by unfold pairLe; infer_instance

/-- The descending order used by `sorted(..., reverse=True)` on sessions. -/
def sessDesc (a b : Session) : Prop := pairLe (sessionKey b) (sessionKey a)

instance : DecidableRel sessDesc := fun a b =>
  inferInstanceAs (Decidable (pairLe (sessionKey b) (sessionKey a)))

instance : IsTotal Session sessDesc :=
  ⟨fun a b => by
    unfold sessDesc pairLe
    rcases lt_trichotomy (sessionKey b).1 (sessionKey a).1 with h | h | h
    · exact Or.inl (Or.inl h)
    · rcases le_total (sessionKey b).2 (sessionKey a).2 with h2 | h2
      · exact Or.inl (Or.inr ⟨h, h2⟩)
      · exact Or.inr (Or.inr ⟨h.symm, h2⟩)
    · exact Or.inr (Or.inl h)⟩

instance : IsTrans Session sessDesc :=
  ⟨fun a b c h1 h2 => by
    unfold sessDesc pairLe at *
    rcases h1 with h1 | ⟨e1, l1⟩
    · rcases h2 with h2 | ⟨e2, l2⟩
      · exact Or.inl (lt_trans h2 h1)
      · exact Or.inl (lt_of_eq_of_lt e2 h1)
    · rcases h2 with h2 | ⟨e2, l2⟩
      · exact Or.inl (lt_of_lt_of_eq h2 e1)
      · exact Or.inr ⟨e2.trans e1, le_trans l2 l1⟩⟩

/-- The `refresh_sessions` display order:
`sorted(sessions, key=lambda s: (date, created_at), reverse=True)`. -/
def sessionsSorted (l : List Session) : List Session :=
  List.insertionSort sessDesc l

/-- One day's totals: the sums of `calories` and `protein` over the meals
whose `date` equals `d` (`m.get("date") == d`). -/
def dayTotals (meals : List Meal) (d : String) : ℚ × ℚ :=
  let daily := meals.filter fun m => m.date == some d
  ((daily.map Meal.calories).sum, (daily.map Meal.protein).sum)

/-- Python `days = max(1, int(self.trend_var.get() or 14))`: the number of
buckets `refresh_reports` draws.  Note Python's `n or 14` replaces the
input `0` by the default `14` before the clamp. -/
def trendDays (n : Int) : Nat := (max 1 (if n = 0 then 14 else n)).toNat

/-- The aggregation of `refresh_reports`: `trendDays n` buckets, one per
calendar day, oldest first, ending today (`now`). -/
def trend (now : Ymd) (n : Int) (meals : List Meal) : List (String × ℚ × ℚ) :=
  (List.range (trendDays n)).map fun i =>
    let d := dateStr (subDays (trendDays n - 1 - i) now)
    (d, dayTotals meals d)

end FTM

/-! ## Concrete fixtures (used by witness theorems) -/

/-- A concrete "today" for witnesses. -/
def wNow : Ymd := ⟨2026, 10, 12⟩

/-- A session dated exactly `now - 14 days`. -/
def wSessionBoundary : FT.Session := ⟨"s14", "Push", some "2026-09-28", some "t1", []⟩

/-- A session dated exactly `now - 15 days`. -/
def wSessionOld : FT.Session := ⟨"s15", "Pull", some "2026-09-27", some "t2", []⟩

/-- A meal dated exactly `now - 7 days`. -/
def wMealBoundary : FT.Meal := ⟨"m7", some "2026-10-05", "08:00:00", "Rice", 100, 130, 3⟩

/-- A meal dated exactly `now - 8 days`. -/
def wMealOld : FT.Meal := ⟨"m8", some "2026-10-04", "09:00:00", "Rice", 100, 130, 3⟩

/-- A concrete simple-variant store. -/
def wStore : FT.Store :=
  ⟨[wSessionBoundary, wSessionOld], [wMealBoundary, wMealOld], [("Rice", ⟨130, 3⟩)]⟩

/-- A meal referencing the food "Rice". -/
def wMealRice : FTM.Meal := ⟨"m1", "ts1", some "2026-10-10", "08:00:00", "Rice", 100, 130, 3⟩

/-- A meal referencing the food "Egg". -/
def wMealEgg : FTM.Meal := ⟨"m2", "ts2", some "2026-10-10", "09:00:00", "Egg", 50, 77.5, 6.5⟩

/-- A concrete modern-variant nutrition document. -/
def wNut : FTM.Nut :=
  ⟨[("Rice", ⟨130, 3⟩), ("Egg", ⟨155, 13⟩)], [wMealRice, wMealEgg]⟩

/-- A concrete nutrition document holding the spec's example food
(165 kcal, 31 g protein per 100 g). -/
def wNutChicken : FTM.Nut := ⟨[("Chicken", ⟨165, 31⟩)], []⟩

/-- The simple-variant store with the spec's example food. -/
def wStoreChicken : FT.Store := ⟨[], [], [("Chicken", ⟨165, 31⟩)]⟩

/-- Sessions sharing a date but with distinct creation timestamps. -/
def wSessA : FTM.Session := ⟨"sa", "Push", some "2026-10-12", some "2026-10-12T08:00:00", []⟩

/-- The later-created of the two equal-dated sessions. -/
def wSessB : FTM.Session := ⟨"sb", "Pull", some "2026-10-12", some "2026-10-12T09:00:00", []⟩

/-! ## Calendar lemmas -/

theorem daysInMonth_bounds (y m : Nat) :
    1 ≤ daysInMonth y m ∧ daysInMonth y m ≤ 31 := by
  unfold daysInMonth
  split
  · split <;> omega
  · split <;> omega

theorem daysInMonth_twelve (y : Nat) : daysInMonth y 12 = 31 := by
  unfold daysInMonth; norm_num

theorem predDay_valid (x : Ymd) (hv : ValidYmd x) (h2 : 2 ≤ x.y) :
    ValidYmd (predDay x) ∧ x.y - 1 ≤ (predDay x).y ∧ (predDay x).y ≤ x.y := by
  obtain ⟨h1, h9, hm1, hm2, hd1, hd2⟩ := hv
  unfold predDay ValidYmd
  split
  · dsimp only; refine ⟨⟨h1, h9, hm1, hm2, ?_, ?_⟩, ?_, ?_⟩ <;> omega
  · split
    · have hb := (daysInMonth_bounds x.y (x.m - 1)).1
      dsimp only; refine ⟨⟨h1, h9, ?_, ?_, hb, le_refl _⟩, ?_, ?_⟩ <;> omega
    · have hb := daysInMonth_twelve (x.y - 1)
      dsimp only; refine ⟨⟨?_, ?_, ?_, ?_, ?_, ?_⟩, ?_, ?_⟩ <;> omega

theorem subDays_valid (k : Nat) (x : Ymd) (hv : ValidYmd x) (hy : k + 1 ≤ x.y) :
    ValidYmd (subDays k x) ∧ x.y - k ≤ (subDays k x).y ∧ (subDays k x).y ≤ x.y := by
  induction k with
  | zero =>
    have h0 : subDays 0 x = x := Function.iterate_zero_apply predDay x
    rw [h0]; exact ⟨hv, by omega, le_refl _⟩
  | succ n ih =>
    have h := ih (by omega)
    have hstep := predDay_valid (subDays n x) h.1 (by omega)
    have hiter : subDays (n + 1) x = predDay (subDays n x) := by
      rw [subDays, subDays, Function.iterate_succ_apply']
    rw [hiter]
    refine ⟨hstep.1, ?_, ?_⟩
    · have := hstep.2.1; have := h.2.1; omega
    · have := hstep.2.2; have := h.2.2; omega

theorem predDay_lt (x : Ymd) (h : 1 ≤ x.y) : ymdLt (predDay x) x := by
  unfold predDay ymdLt
  split
  · right; dsimp only; exact ⟨rfl, Or.inr ⟨rfl, by omega⟩⟩
  · split
    · right; dsimp only; exact ⟨rfl, Or.inl (by omega)⟩
    · left; dsimp only; omega

theorem subDays_lt_succ (k : Nat) (x : Ymd) (hv : ValidYmd x) (hy : k + 2 ≤ x.y) :
    ymdLt (subDays (k + 1) x) (subDays k x) := by
  have h := subDays_valid k x hv (by omega)
  rw [subDays, Function.iterate_succ_apply']
  exact predDay_lt (subDays k x) (by have := h.2.1; omega)

/-! ## String-order lemmas: zero-padded decimal strings compare like numbers -/

theorem digitChar_lt {a b : Nat} (ha : a < 10) (hb : b < 10) (h : a < b) :
    digitChar a < digitChar b := by
  interval_cases a <;> interval_cases b <;> revert h <;> decide

theorem pad2_lex {a b : Nat} (hb : b ≤ 99) (h : a < b) (s t : List Char) :
    List.Lex (· < ·) (pad2 a ++ s) (pad2 b ++ t) := by
  unfold pad2
  by_cases hd : a / 10 % 10 < b / 10 % 10
  · exact List.Lex.rel (digitChar_lt (by omega) (by omega) hd)
  · have he : a / 10 % 10 = b / 10 % 10 := by omega
    rw [he]
    refine List.Lex.cons (List.Lex.rel (digitChar_lt (by omega) (by omega) ?_))
    omega

theorem pad4_lex {a b : Nat} (hb : b ≤ 9999) (h : a < b) (s t : List Char) :
    List.Lex (· < ·) (pad4 a ++ s) (pad4 b ++ t) := by
  unfold pad4
  by_cases h1 : a / 1000 % 10 < b / 1000 % 10
  · exact List.Lex.rel (digitChar_lt (by omega) (by omega) h1)
  · have e1 : a / 1000 % 10 = b / 1000 % 10 := by omega
    rw [e1]
    refine List.Lex.cons ?_
    by_cases h2 : a / 100 % 10 < b / 100 % 10
    · exact List.Lex.rel (digitChar_lt (by omega) (by omega) h2)
    · have e2 : a / 100 % 10 = b / 100 % 10 := by omega
      rw [e2]
      refine List.Lex.cons ?_
      by_cases h3 : a / 10 % 10 < b / 10 % 10
      · exact List.Lex.rel (digitChar_lt (by omega) (by omega) h3)
      · have e3 : a / 10 % 10 = b / 10 % 10 := by omega
        rw [e3]
        refine List.Lex.cons (List.Lex.rel (digitChar_lt (by omega) (by omega) ?_))
        omega

/-- Within 4-digit years, `strftime("%Y-%m-%d")` is strictly monotone:
date order becomes lexicographic string order. -/
theorem dateStr_lt {a b : Ymd} (hby : b.y ≤ 9999) (hbm : b.m ≤ 99) (hbd : b.d ≤ 99)
    (h : ymdLt a b) : dateStr a < dateStr b := by
  have key : List.Lex (· < ·) (pad4 a.y ++ '-' :: (pad2 a.m ++ '-' :: pad2 a.d))
      (pad4 b.y ++ '-' :: (pad2 b.m ++ '-' :: pad2 b.d)) := by
    rcases h with hy | ⟨hy, hm | ⟨hm, hd⟩⟩
    · exact pad4_lex hby hy _ _
    · rw [hy]
      exact List.Lex.append_left (· < ·) (List.Lex.cons (pad2_lex hbm hm _ _)) (pad4 b.y)
    · rw [hy, hm]
      refine List.Lex.append_left (· < ·) (List.Lex.cons ?_) (pad4 b.y)
      exact List.Lex.append_left (· < ·) (List.Lex.cons (pad2_lex hbd hd [] [])) (pad2 b.m)
  rw [String.lt_iff_toList_lt]
  have ea : (dateStr a).toList = pad4 a.y ++ '-' :: (pad2 a.m ++ '-' :: pad2 a.d) := rfl
  have eb : (dateStr b).toList = pad4 b.y ++ '-' :: (pad2 b.m ++ '-' :: pad2 b.d) := rfl
  rw [ea, eb]
  exact key

/-- A formatted date string is lexicographically above the empty string. -/
theorem empty_lt_dateStr (x : Ymd) : "" < dateStr x := by
  rw [String.lt_iff_toList_lt]
  have ex : (dateStr x).toList =
      digitChar (x.y / 1000 % 10) :: (pad4 x.y).tail ++ '-' :: (pad2 x.m ++ '-' :: pad2 x.d) := rfl
  have ee : ("" : String).toList = [] := rfl
  rw [ex, ee]
  exact List.Lex.nil

/-- Going one more day back strictly decreases the formatted date string. -/
theorem dateStr_subDays_succ_lt (now : Ymd) (k : Nat) (hv : ValidYmd now)
    (hy : k + 2 ≤ now.y) :
    dateStr (subDays (k + 1) now) < dateStr (subDays k now) := by
  have hvk := subDays_valid k now hv (by omega)
  obtain ⟨⟨_, h9, _, hm, _, hd⟩, _, _⟩ := hvk
  have hdm := (daysInMonth_bounds (subDays k now).y (subDays k now).m).2
  exact dateStr_lt h9 (by omega) (by omega) (subDays_lt_succ k now hv hy)

/-! ## Shared helper lemmas -/

theorem lookup_filter_ne {β : Type} (name : String) (l : List (String × β)) :
    (l.filter fun p => p.1 != name).lookup name = none := by
  induction l with
  | nil => rfl
  | cons p l ih =>
    obtain ⟨k, v⟩ := p
    by_cases h : k = name
    · simpa [List.filter_cons, h] using ih
    · have hk : (name == k) = false := by simp [Ne.symm h]
      simp [List.filter_cons, h, List.lookup, hk, ih]

/-! ## Claims -/

/-- C9: for every store state and every date `now`, `prune(now)` leaves the
foods collection exactly unchanged — no food entry is removed or modified
by retention pruning, regardless of its age. -/
theorem C9_prune_foods_unchanged (now : Ymd) (st : FT.Store) :
    (FT.prune now st).foods = st.foods := rfl

/-- C5: for every store state and every date `now`, applying `prune(now)`
twice yields the same sessions and meals collections as applying it once. -/
theorem C5_prune_idempotent (now : Ymd) (st : FT.Store) :
    FT.prune now (FT.prune now st) = FT.prune now st := by
  unfold FT.prune
  simp [List.filter_filter]

/-- C10: for every store state and every date `now`, `prune(now)` removes
every session and meal record that lacks a `date` field: the missing date
reads as `""`, which sorts lexicographically before the formatted cutoff,
so such records never survive a prune. -/
theorem C10_prune_drops_dateless (now : Ymd) (st : FT.Store) :
    (∀ s, s ∈ st.sessions → s.date = none → s ∉ (FT.prune now st).sessions) ∧
    (∀ m, m ∈ st.meals → m.date = none → m ∉ (FT.prune now st).meals) := by
  constructor
  · intro s _ hdate hmem
    rw [FT.prune, List.mem_filter] at hmem
    have hcmp := hmem.2
    rw [hdate] at hcmp
    simp only [Option.getD_none, decide_eq_true_eq] at hcmp
    exact absurd hcmp (not_le.mpr (empty_lt_dateStr (subDays 14 now)))
  · intro m _ hdate hmem
    rw [FT.prune, List.mem_filter] at hmem
    have hcmp := hmem.2
    rw [hdate] at hcmp
    simp only [Option.getD_none, decide_eq_true_eq] at hcmp
    exact absurd hcmp (not_le.mpr (empty_lt_dateStr (subDays 7 now)))

/-- C10 witness: a dateless session and a dateless meal are both gone after
pruning a concrete store. -/
theorem C10_prune_drops_dateless_witness :
    (⟨"s1", "Push", none, none, []⟩ : FT.Session) ∉
      (FT.prune ⟨2026, 10, 12⟩
        ⟨[⟨"s1", "Push", none, none, []⟩], [⟨"m1", none, "12:00:00", "Rice", 100, 130, 3⟩], []⟩).sessions ∧
    (⟨"m1", none, "12:00:00", "Rice", 100, 130, 3⟩ : FT.Meal) ∉
      (FT.prune ⟨2026, 10, 12⟩
        ⟨[⟨"s1", "Push", none, none, []⟩], [⟨"m1", none, "12:00:00", "Rice", 100, 130, 3⟩], []⟩).meals := by
  constructor
  · exact (C10_prune_drops_dateless ⟨2026, 10, 12⟩ _).1 _ (List.mem_singleton.mpr rfl) rfl
  · exact (C10_prune_drops_dateless ⟨2026, 10, 12⟩ _).2 _ (List.mem_singleton.mpr rfl) rfl

/-- C1: deleting a food removes it from the foods registry and removes
exactly the meals that reference it; unrelated meals survive unchanged and
no meal referencing the deleted food remains.  Stated for both programs:
`FitTrackerModern.delete_food` and `FitSimple.del_food`. -/
theorem C1_delete_food_cascade (nut : FTM.Nut) (st : FT.Store) (name : String)
    (hmem : (nut.foods.lookup name).isSome) (hmemS : (st.foods.lookup name).isSome) :
    ((FTM.deleteFood nut name).foods.lookup name = none ∧
      (FTM.deleteFood nut name).meals = nut.meals.filter (fun m => m.food != name) ∧
      (∀ m, m ∈ (FTM.deleteFood nut name).meals → m.food ≠ name) ∧
      (∀ m, m ∈ nut.meals → m.food ≠ name → m ∈ (FTM.deleteFood nut name).meals)) ∧
    ((FT.delFood st name).foods.lookup name = none ∧
      (FT.delFood st name).meals = st.meals.filter (fun m => m.food != name) ∧
      (∀ m, m ∈ (FT.delFood st name).meals → m.food ≠ name) ∧
      (∀ m, m ∈ st.meals → m.food ≠ name → m ∈ (FT.delFood st name).meals)) := by
  constructor
  · refine ⟨lookup_filter_ne name nut.foods, rfl, ?_, ?_⟩
    · intro m hm
      rw [FTM.deleteFood, List.mem_filter] at hm
      simpa using hm.2
    · intro m hm hne
      rw [FTM.deleteFood, List.mem_filter]
      exact ⟨hm, by simpa using hne⟩
  · refine ⟨lookup_filter_ne name st.foods, rfl, ?_, ?_⟩
    · intro m hm
      rw [FT.delFood, List.mem_filter] at hm
      simpa using hm.2
    · intro m hm hne
      rw [FT.delFood, List.mem_filter]
      exact ⟨hm, by simpa using hne⟩

/-- C1 witness: deleting "Rice" from a concrete store removes the food, the
meal that referenced it, and keeps the unrelated meal. -/
theorem C1_delete_food_cascade_witness :
    (wNut.foods.lookup "Rice").isSome ∧ (wStore.foods.lookup "Rice").isSome ∧
    (FTM.deleteFood wNut "Rice").foods.lookup "Rice" = none ∧
    (∀ m, m ∈ (FTM.deleteFood wNut "Rice").meals → m.food ≠ "Rice") ∧
    (wMealEgg ∈ (FTM.deleteFood wNut "Rice").meals) := by
  have h := C1_delete_food_cascade wNut wStore "Rice" rfl rfl
  exact ⟨rfl, rfl, h.1.1, h.1.2.2.1,
    h.1.2.2.2 wMealEgg (List.mem_cons_of_mem _ (List.mem_singleton.mpr rfl)) (by decide)⟩

/-- C2: pruning at date `now` (within 4-digit years) retains exactly the
sessions whose date string is lexicographically `≥` the formatted
`now - 14 days` and the meals whose date string is `≥` the formatted
`now - 7 days`; a session dated exactly `now - 14 days` is retained and
one dated `now - 15 days` is removed, and a meal dated exactly
`now - 7 days` is retained and one dated `now - 8 days` is removed. -/
theorem C2_prune_retention (now : Ymd) (st : FT.Store)
    (hv : ValidYmd now) (hy : 1016 ≤ now.y) :
    (∀ s, s ∈ (FT.prune now st).sessions ↔
        s ∈ st.sessions ∧ dateStr (subDays 14 now) ≤ s.date.getD "") ∧
    (∀ m, m ∈ (FT.prune now st).meals ↔
        m ∈ st.meals ∧ dateStr (subDays 7 now) ≤ m.date.getD "") ∧
    (∀ s, s ∈ st.sessions → s.date = some (dateStr (subDays 14 now)) →
        s ∈ (FT.prune now st).sessions) ∧
    (∀ s, s ∈ st.sessions → s.date = some (dateStr (subDays 15 now)) →
        s ∉ (FT.prune now st).sessions) ∧
    (∀ m, m ∈ st.meals → m.date = some (dateStr (subDays 7 now)) →
        m ∈ (FT.prune now st).meals) ∧
    (∀ m, m ∈ st.meals → m.date = some (dateStr (subDays 8 now)) →
        m ∉ (FT.prune now st).meals) := by
  have hiff_s : ∀ s : FT.Session, s ∈ (FT.prune now st).sessions ↔
      s ∈ st.sessions ∧ dateStr (subDays 14 now) ≤ s.date.getD "" := by
    intro s; rw [FT.prune]; simp [List.mem_filter]
  have hiff_m : ∀ m : FT.Meal, m ∈ (FT.prune now st).meals ↔
      m ∈ st.meals ∧ dateStr (subDays 7 now) ≤ m.date.getD "" := by
    intro m; rw [FT.prune]; simp [List.mem_filter]
  have hlt14 : dateStr (subDays 15 now) < dateStr (subDays 14 now) :=
    dateStr_subDays_succ_lt now 14 hv (by omega)
  have hlt7 : dateStr (subDays 8 now) < dateStr (subDays 7 now) :=
    dateStr_subDays_succ_lt now 7 hv (by omega)
  refine ⟨hiff_s, hiff_m, ?_, ?_, ?_, ?_⟩
  · intro s hs hd
    exact (hiff_s s).mpr ⟨hs, by rw [hd]; exact le_refl _⟩
  · intro s _ hd hmem
    have h := ((hiff_s s).mp hmem).2
    rw [hd] at h
    simp only [Option.getD_some] at h
    exact absurd h (not_le.mpr hlt14)
  · intro m hm hd
    exact (hiff_m m).mpr ⟨hm, by rw [hd]; exact le_refl _⟩
  · intro m _ hd hmem
    have h := ((hiff_m m).mp hmem).2
    rw [hd] at h
    simp only [Option.getD_some] at h
    exact absurd h (not_le.mpr hlt7)

/-- C2 witness: at `now = 2026-10-12` the session dated `2026-09-28` is
retained, the one dated `2026-09-27` is removed, the meal dated
`2026-10-05` is retained and the one dated `2026-10-04` is removed. -/
theorem C2_prune_retention_witness :
    ValidYmd wNow ∧ 1016 ≤ wNow.y ∧
    wSessionBoundary ∈ (FT.prune wNow wStore).sessions ∧
    wSessionOld ∉ (FT.prune wNow wStore).sessions ∧
    wMealBoundary ∈ (FT.prune wNow wStore).meals ∧
    wMealOld ∉ (FT.prune wNow wStore).meals := by
  have h := C2_prune_retention wNow wStore (by decide) (by decide)
  refine ⟨by decide, by decide, ?_, ?_, ?_, ?_⟩
  · exact h.2.2.1 wSessionBoundary (List.mem_cons_self _ _) (by decide)
  · exact h.2.2.2.1 wSessionOld (List.mem_cons_of_mem _ (List.mem_singleton.mpr rfl)) (by decide)
  · exact h.2.2.2.2.1 wMealBoundary (List.mem_cons_self _ _) (by decide)
  · exact h.2.2.2.2.2 wMealOld (List.mem_cons_of_mem _ (List.mem_singleton.mpr rfl)) (by decide)

/-- C3: a meal created from a food with per-100g values `c` and `p` and a
gram amount `g` carries `calories = round2 (c * g / 100)` and
`protein = round2 (p * g / 100)`, computed and rounded at creation time;
for the spec's example food (165 kcal / 31 g per 100 g) and 150 g this
gives calories 247.5 and protein 46.5.  Stated for both programs. -/
theorem C3_derived_fields (nut : FTM.Nut) (st : FT.Store) (date choice : String)
    (grams : ℚ) (newId ts time : String) (f : FTM.Food) (g : FT.Food)
    (hf : nut.foods.lookup choice = some f) (hg : st.foods.lookup choice = some g)
    (hne : choice ≠ "") :
    ((FTM.addMeal nut date choice grams newId ts time).1.meals =
      nut.meals ++ [⟨newId, ts, some date, time, choice, round2 grams,
        round2 (f.cal_per_100g * (grams / 100)),
        round2 (f.protein_per_100g * (grams / 100))⟩]) ∧
    ((FT.logMeal st date choice grams newId time).1.meals =
      st.meals ++ [⟨newId, some date, time, choice, round2 grams,
        round2 (g.cal * (grams / 100)), round2 (g.prot * (grams / 100))⟩]) ∧
    (f.cal_per_100g = 165 → f.protein_per_100g = 31 → grams = 150 →
      round2 (f.cal_per_100g * (grams / 100)) = 247.5 ∧
      round2 (f.protein_per_100g * (grams / 100)) = 46.5) := by
  refine ⟨?_, ?_, ?_⟩
  · rw [FTM.addMeal, if_neg hne, hf]
  · rw [FT.logMeal, if_neg hne, hg]
  · intro hc hp hgr
    rw [hc, hp, hgr]
    constructor <;> norm_num [round2, roundHalfEven]

/-- C3 witness: logging 150 g of the example food in concrete stores
produces a meal with calories 247.5 and protein 46.5. -/
theorem C3_derived_fields_witness :
    wNutChicken.foods.lookup "Chicken" = some ⟨165, 31⟩ ∧
    wStoreChicken.foods.lookup "Chicken" = some ⟨165, 31⟩ ∧
    ("Chicken" : String) ≠ "" ∧
    (FTM.addMeal wNutChicken "2026-10-12" "Chicken" 150 "id1" "ts1" "12:00:00").1.meals =
      [⟨"id1", "ts1", some "2026-10-12", "12:00:00", "Chicken", round2 150,
        round2 ((165 : ℚ) * (150 / 100)), round2 ((31 : ℚ) * (150 / 100))⟩] ∧
    round2 ((165 : ℚ) * (150 / 100)) = 247.5 ∧
    round2 ((31 : ℚ) * (150 / 100)) = 46.5 := by
  have h := C3_derived_fields wNutChicken wStoreChicken "2026-10-12" "Chicken" 150
    "id1" "ts1" "12:00:00" ⟨165, 31⟩ ⟨165, 31⟩ rfl rfl (by decide)
  exact ⟨rfl, rfl, by decide, h.1, h.2.2 rfl rfl rfl⟩

/-- C6 (amended): `create_meal` with a food name that is not a current key
of the foods registry fails with `InvalidReference` and leaves the meals
collection unchanged; when the food name is non-empty and is a current
key, a meal with the caller-supplied fresh identifier and derived fields
is appended.  (The code rejects an empty food name even when `""` is a
key, which is the one amendment to the claim.) -/
theorem C6_create_meal_rejection (nut : FTM.Nut) (date choice : String) (grams : ℚ)
    (newId ts time : String) :
    (nut.foods.lookup choice = none →
      FTM.addMeal nut date choice grams newId ts time =
        (nut, some MealError.invalidReference) ∧
      (FTM.addMeal nut date choice grams newId ts time).1.meals = nut.meals) ∧
    (∀ f, nut.foods.lookup choice = some f → choice ≠ "" →
      FTM.addMeal nut date choice grams newId ts time =
        ({ nut with meals := nut.meals ++ [⟨newId, ts, some date, time, choice,
            round2 grams, round2 (f.cal_per_100g * (grams / 100)),
            round2 (f.protein_per_100g * (grams / 100))⟩] }, none)) := by
  constructor
  · intro hnone
    by_cases he : choice = ""
    · rw [FTM.addMeal, if_pos he]
      exact ⟨rfl, rfl⟩
    · rw [FTM.addMeal, if_neg he, hnone]
      exact ⟨rfl, rfl⟩
  · intro f hf hne
    rw [FTM.addMeal, if_neg hne, hf]

/-- C6 counterexample: in a store whose foods registry contains the key
`""`, `create_meal` with the existing food name `""` is rejected and
appends nothing, refuting the claim that any currently-present food name
leads to a meal being appended. -/
theorem C6_create_meal_rejection_cx :
    ((⟨[("", ⟨100, 10⟩)], []⟩ : FTM.Nut).foods.lookup "") = some ⟨100, 10⟩ ∧
    FTM.addMeal ⟨[("", ⟨100, 10⟩)], []⟩ "2026-10-12" "" 100 "id1" "ts1" "12:00:00" =
      (⟨[("", ⟨100, 10⟩)], []⟩, some MealError.invalidReference) :=
  ⟨rfl, rfl⟩

/-- C6 witness: a non-existent food name is rejected leaving meals intact,
and an existing non-empty one appends the derived meal. -/
theorem C6_create_meal_rejection_witness :
    wNut.foods.lookup "Banana" = none ∧
    FTM.addMeal wNut "2026-10-12" "Banana" 100 "id9" "ts9" "12:00:00" =
      (wNut, some MealError.invalidReference) ∧
    (FTM.addMeal wNut "2026-10-12" "Banana" 100 "id9" "ts9" "12:00:00").1.meals =
      wNut.meals ∧
    FTM.addMeal wNut "2026-10-12" "Rice" 50 "id9" "ts9" "12:00:00" =
      ({ wNut with meals := wNut.meals ++ [⟨"id9", "ts9", some "2026-10-12", "12:00:00",
          "Rice", round2 50, round2 ((130 : ℚ) * (50 / 100)),
          round2 ((3 : ℚ) * (50 / 100))⟩] }, none) := by
  have hb := C6_create_meal_rejection wNut "2026-10-12" "Banana" 100 "id9" "ts9" "12:00:00"
  have hr := C6_create_meal_rejection wNut "2026-10-12" "Rice" 50 "id9" "ts9" "12:00:00"
  exact ⟨rfl, (hb.1 rfl).1, (hb.1 rfl).2, hr.2 ⟨130, 3⟩ rfl (by decide)⟩

/-- C7: `edit_meal` on an id held by no meal fails (`NotFound`) leaving the
meals unchanged; on a meal whose food has since been deleted it fails
(`InvalidReference`) leaving the meals unchanged; otherwise it rewrites
that meal's grams and recomputes calories and protein from the food's
current per-100g values and the new grams, rounded to 2 decimal places. -/
theorem C7_edit_meal (nut : FTM.Nut) (mid : String) (grams : ℚ) :
    ((∀ m, m ∈ nut.meals → m.id ≠ mid) →
      FTM.editMeal nut mid grams = (nut, some MealError.notFound)) ∧
    (∀ meal, nut.meals.find? (fun m => m.id == mid) = some meal →
      nut.foods.lookup meal.food = none →
      FTM.editMeal nut mid grams = (nut, some MealError.invalidReference)) ∧
    (∀ meal f, nut.meals.find? (fun m => m.id == mid) = some meal →
      nut.foods.lookup meal.food = some f →
      FTM.editMeal nut mid grams =
        ({ nut with meals := updateFirst (fun m => m.id == mid)
                      (FTM.remeasure f grams) nut.meals }, none)) := by
  refine ⟨?_, ?_, ?_⟩
  · intro hall
    have hnone : nut.meals.find? (fun m => m.id == mid) = none := by
      rw [List.find?_eq_none]
      intro m hm
      simpa using hall m hm
    simp only [FTM.editMeal, hnone]
  · intro meal hfind hfood
    simp only [FTM.editMeal, hfind, hfood]
  · intro meal f hfind hfood
    simp only [FTM.editMeal, hfind, hfood]

/-- C7 witness: in the concrete store, editing an unknown id is a
`NotFound` no-op and editing meal "m1" re-derives its fields from the
current "Rice" values. -/
theorem C7_edit_meal_witness :
    FTM.editMeal wNut "zzz" 200 = (wNut, some MealError.notFound) ∧
    FTM.editMeal wNut "m1" 200 =
      ({ wNut with meals := updateFirst (fun m => m.id == "m1")
                      (FTM.remeasure ⟨130, 3⟩ 200) wNut.meals }, none) := by
  have hz := C7_edit_meal wNut "zzz" 200
  have h1 := C7_edit_meal wNut "m1" 200
  exact ⟨hz.1 (by decide), h1.2.2 wMealRice ⟨130, 3⟩ rfl rfl⟩

/-- C8: `sessions_sorted` is a permutation of the sessions ordered by
`(date, created_at)` descending — most recent date first, ties broken by
the later creation timestamp first; in particular whenever one session
precedes another with the same date, the earlier position holds the
later-or-equal `created_at`.  The order relation is total and transitive,
so the displayed order is deterministic. -/
theorem C8_sessions_sorted (l : List FTM.Session) :
    (FTM.sessionsSorted l).Perm l ∧
    List.Pairwise FTM.sessDesc (FTM.sessionsSorted l) ∧
    (∀ (i j : Nat) (si sj : FTM.Session), i < j →
      (FTM.sessionsSorted l)[i]? = some si →
      (FTM.sessionsSorted l)[j]? = some sj →
      si.date.getD "" = sj.date.getD "" →
      sj.created_at.getD "" ≤ si.created_at.getD "") := by
  have hsort : List.Sorted FTM.sessDesc (FTM.sessionsSorted l) :=
    List.sorted_insertionSort FTM.sessDesc l
  refine ⟨List.perm_insertionSort FTM.sessDesc l, hsort, ?_⟩
  intro i j si sj hij hi hj hdate
  obtain ⟨hilt, hie⟩ := List.getElem?_eq_some.mp hi
  obtain ⟨hjlt, hje⟩ := List.getElem?_eq_some.mp hj
  have hrel := List.pairwise_iff_get.mp hsort ⟨i, hilt⟩ ⟨j, hjlt⟩ hij
  rw [List.get_eq_getElem, List.get_eq_getElem, hie, hje] at hrel
  rcases hrel with hlt | ⟨_, hle⟩
  · rw [FTM.sessionKey, FTM.sessionKey] at hlt
    rw [hdate] at hlt
    exact absurd hlt (lt_irrefl _)
  · exact hle

/-- C8 witness: applied to two sessions sharing a date with distinct
creation timestamps. -/
theorem C8_sessions_sorted_witness :
    (FTM.sessionsSorted [wSessA, wSessB]).Perm [wSessA, wSessB] ∧
    List.Pairwise FTM.sessDesc (FTM.sessionsSorted [wSessA, wSessB]) ∧
    (∀ (i j : Nat) (si sj : FTM.Session), i < j →
      (FTM.sessionsSorted [wSessA, wSessB])[i]? = some si →
      (FTM.sessionsSorted [wSessA, wSessB])[j]? = some sj →
      si.date.getD "" = sj.date.getD "" →
      sj.created_at.getD "" ≤ si.created_at.getD "") :=
  C8_sessions_sorted [wSessA, wSessB]

/-- C4 (amended): for `n_days ≥ 1`, `trend(n_days)` yields exactly
`n_days` buckets, bucket `i` (oldest first) being the day `n_days - 1 - i`
days before today with the sums of calories and protein of the meals
dated that day, and a day without meals yields the zero bucket; a
negative `n_days` is clamped to 1, while `n_days = 0` falls back to the
14-day default (not to 1, the one amendment to the claim). -/
theorem C4_trend_buckets (now : Ymd) (n : Int) (meals : List FTM.Meal) :
    (1 ≤ n →
      (FTM.trend now n meals).length = n.toNat ∧
      (∀ i, i < n.toNat →
        (FTM.trend now n meals)[i]? =
          some (dateStr (subDays (n.toNat - 1 - i) now),
            FTM.dayTotals meals (dateStr (subDays (n.toNat - 1 - i) now)))) ∧
      (∀ i, i < n.toNat →
        (∀ m, m ∈ meals → m.date ≠ some (dateStr (subDays (n.toNat - 1 - i) now))) →
        (FTM.trend now n meals)[i]? =
          some (dateStr (subDays (n.toNat - 1 - i) now), 0, 0))) ∧
    (n < 0 → FTM.trend now n meals = FTM.trend now 1 meals) ∧
    (FTM.trend now 0 meals = FTM.trend now 14 meals) := by
  refine ⟨?_, ?_, ?_⟩
  · intro hn
    have hd : FTM.trendDays n = n.toNat := by
      rw [FTM.trendDays, if_neg (by omega), max_eq_right hn]
    have hlen : (FTM.trend now n meals).length = n.toNat := by
      rw [FTM.trend, List.length_map, List.length_range, hd]
    have hget : ∀ i, i < n.toNat →
        (FTM.trend now n meals)[i]? =
          some (dateStr (subDays (n.toNat - 1 - i) now),
            FTM.dayTotals meals (dateStr (subDays (n.toNat - 1 - i) now))) := by
      intro i hi
      rw [FTM.trend, List.getElem?_map, hd, List.getElem?_range (by omega : i < n.toNat)]
      rfl
    refine ⟨hlen, hget, ?_⟩
    intro i hi hnone
    rw [hget i hi]
    have hfil : meals.filter (fun m => m.date == some (dateStr (subDays (n.toNat - 1 - i) now))) = [] := by
      rw [List.filter_eq_nil_iff]
      intro m hm
      simpa using hnone m hm
    rw [FTM.dayTotals]
    rw [hfil]
    rfl
  · intro hn
    have hd : FTM.trendDays n = FTM.trendDays 1 := by
      rw [FTM.trendDays, FTM.trendDays, if_neg (by omega), if_neg (by omega)]
      rw [max_eq_left (by omega), max_eq_right (by omega)]
    rw [FTM.trend, FTM.trend, hd]
  · rfl

/-- C4 counterexample: `trend(0)` produces the 14 default buckets, not the
single bucket the claim's "values ≤ 0 are clamped to 1" would require. -/
theorem C4_trend_buckets_cx :
    (FTM.trend wNow 0 []).length = 14 ∧ (FTM.trend wNow 0 []).length ≠ 1 := by
  have h : (FTM.trend wNow 0 []).length = 14 := by
    rw [FTM.trend, List.length_map, List.length_range]
    rfl
  exact ⟨h, by rw [h]; decide⟩

/-- C4 witness: `trend(7)` on an empty meal list yields 7 buckets and the
oldest bucket is the zero bucket for the day 6 days before today. -/
theorem C4_trend_buckets_witness :
    (1 : Int) ≤ 7 ∧
    (FTM.trend wNow 7 []).length = (7 : Int).toNat ∧
    (FTM.trend wNow 7 [])[0]? = some (dateStr (subDays 6 wNow), 0, 0) := by
  have h := (C4_trend_buckets wNow 7 []).1 (by decide)
  exact ⟨by decide, h.1, h.2.2 0 (by decide) (fun m hm => absurd hm (List.not_mem_nil m))⟩

end FitTrack
